import Mathlib

/-!
Shallow embedding of the core decision logic of the pluralistic-alignment
repository: the controversy classifier (`src/controversy.py`), the community
selector (`src/community_selection.py`) and the consistency cache
(`src/cache.py`), together with theorems settling the frozen claims about
them.

Python string primitives (`str.lower`, `str.strip`, `str.split`,
`str.split("```")`, `str.startswith`, slicing) are re-implemented here over
`String.data : List Char` so that every definition evaluates inside the
kernel.  External primitives that are not part of this repository — the
`re` regex engine, `hashlib.sha256`, `json.loads`, the OpenAI client and the
prompt template rendering — are taken as explicit function parameters, so
every theorem quantifies over their behaviour.
-/

/-! ## Python string primitives (over `String.data`) -/

/-- Python `s.lower()` (ASCII case folding, as used on the ASCII queries and
patterns of the source). -/
def py_lower (s : String) : String := ⟨s.data.map Char.toLower⟩

/-- Python `s.strip()`: remove leading and trailing whitespace. -/
def py_strip (s : String) : String :=
  ⟨((s.data.dropWhile Char.isWhitespace).reverse.dropWhile Char.isWhitespace).reverse⟩

def py_split_ws_aux : List Char → List Char → List String
  | [], acc => if acc.isEmpty then [] else [⟨acc.reverse⟩]
  | c :: rest, acc =>
      if c.isWhitespace then
        if acc.isEmpty then py_split_ws_aux rest []
        else String.mk acc.reverse :: py_split_ws_aux rest []
      else py_split_ws_aux rest (c :: acc)

/-- Python `s.split()` with no argument: split on runs of whitespace,
discarding empty pieces. -/
def py_split_ws (s : String) : List String := py_split_ws_aux s.data []

/-- Python `sep.join(xs)`. -/
def py_join (sep : String) : List String → String
  | [] => ""
  | [x] => x
  | x :: rest => x ++ sep ++ py_join sep rest

def split_ticks_aux : List Char → List Char → List (List Char)
  | '`' :: '`' :: '`' :: rest, acc => acc.reverse :: split_ticks_aux rest []
  | c :: rest, acc => split_ticks_aux rest (c :: acc)
  | [], acc => [acc.reverse]

/-- Python `s.split("```")`, the only separator-split performed by the source
(`detect_controversy_llm`'s code-fence stripping). -/
def py_split_ticks (s : String) : List String :=
  (split_ticks_aux s.data []).map String.mk

/-- Python `s.startswith(p)`. -/
def py_startswith (s p : String) : Bool := p.data.isPrefixOf s.data

/-- Python `s[n:]`. -/
def py_drop (s : String) (n : Nat) : String := ⟨s.data.drop n⟩

/-! ## `src/controversy.py`: data model -/

/-- The `ControversyLevel` enum of `src/controversy.py`. -/
inductive ControversyLevel where
  | NONE
  | LOW
  | MEDIUM
  | HIGH
deriving DecidableEq, Repr

/-- The `ControversyProfile` dataclass of `src/controversy.py`.  The dataclass
defaults are `divergent_communities=[]`, `reasoning=""`,
`intra_community_contrast=None`. -/
structure ControversyProfile where
  religious : ControversyLevel
  political : ControversyLevel
  regional : ControversyLevel
  divergent_communities : List String
  reasoning : String
  intra_community_contrast : Option String
deriving DecidableEq, Repr

/-- ControversyProfile constructed with the three levels and the dataclass
defaults for the remaining fields, as done throughout `src/controversy.py`. -/
def profile3 (r p g : ControversyLevel) : ControversyProfile :=
  { religious := r, political := p, regional := g,
    divergent_communities := [], reasoning := "", intra_community_contrast := none }

/-- Membership in the Python set `{ControversyLevel.MEDIUM, ControversyLevel.HIGH}`
used by `should_surface_perspectives` and the selector's dimension tests. -/
def inHighControversy (l : ControversyLevel) : Bool :=
  l == ControversyLevel.MEDIUM || l == ControversyLevel.HIGH

/-- `ControversyProfile.should_surface_perspectives` from `src/controversy.py`:
surface if any dimension is medium or high. -/
def ControversyProfile.should_surface_perspectives (p : ControversyProfile) : Bool :=
  inHighControversy p.religious || inHighControversy p.political ||
    inHighControversy p.regional

/-- `get_controversy_dimensions` from `src/controversy.py`: list of dimension
names whose level is medium or high, in the fixed order religious, political,
regional. -/
def get_controversy_dimensions (profile : ControversyProfile) : List String :=
  (if inHighControversy profile.religious then ["religious"] else []) ++
  (if inHighControversy profile.political then ["political"] else []) ++
  (if inHighControversy profile.regional then ["regional"] else [])

/-! ## `src/controversy.py`: rule-based classifier

The Python engine tests `re.search(pattern, query_lower, re.IGNORECASE)` for
each pattern.  The `re` module is external to the repository, so the matcher
is a parameter `search : String → String → Bool` (pattern, text); the pattern
strings themselves are transcribed verbatim from the source (`{`/`}` written
as the escapes `\x7b`/`\x7d`). -/

/-- `FACTUAL_PATTERNS` from `src/controversy.py`. -/
def FACTUAL_PATTERNS : List String :=
  [ "\\bcapital\\s+of\\b",
    "\\bhow\\s+(do|to)\\s+(make|cook|write|code|program)\\b",
    "\\bwhat\\s+time\\b",
    "\\bwho\\s+won\\b",
    "\\bfor\\s+loop\\b",
    "\\brecipe\\b",
    "\\bprogramming\\b",
    "\\bsyntax\\b" ]

/-- One entry of the `TOPIC_PATTERNS` dict of `src/controversy.py`: the topic
category name, its match patterns, and its fixed profile. -/
structure TopicEntry where
  category : String
  patterns : List String
  profile : ControversyProfile
deriving Repr

/-- `TOPIC_PATTERNS` from `src/controversy.py`, in declaration (= Python dict
insertion) order. -/
def TOPIC_PATTERNS : List TopicEntry :=
  [ { category := "reproductive_rights",
      patterns :=
        [ "\\babortion\\b", "\\breproductive\\s+rights?\\b", "\\bpro[- ]?(life|choice)\\b",
          "\\broe\\s+v\\.?\\s*wade\\b", "\\bpregnancy\\s+termination\\b" ],
      profile := profile3 .HIGH .HIGH .LOW },
    { category := "climate_environment",
      patterns :=
        [ "\\bclimate\\s+change\\b", "\\bglobal\\s+warming\\b", "\\bclimate\\s+policy\\b",
          "\\benvironmental\\s+(policy|protection)\\b", "\\bcarbon\\s+(tax|emissions?)\\b",
          "\\bgreen\\s+new\\s+deal\\b", "\\bclimate\\s+science\\b", "\\bclimate\\b",
          "\\benvironment\\s+and\\s+development\\b", "\\baddress\\s+climate\\b" ],
      profile := profile3 .LOW .HIGH .MEDIUM },
    { category := "church_state_separation",
      patterns :=
        [ "\\breligious\\s+symbols?\\b", "\\bpublic\\s+school.\x7b0,20\x7d(prayer|religious)\\b",
          "\\bchurch\\s+and\\s+state\\b", "\\bsecularism\\b", "\\blaicit[eé]\\b",
          "\\breligious\\s+(clothing|dress|headwear)\\b", "\\bhijab\\b", "\\bturban\\b",
          "\\bburqa\\b", "\\breligious\\s+freedom\\b", "\\bprayer.\x7b0,20\x7d(school|public)\\b",
          "\\bschool.\x7b0,20\x7dprayer\\b" ],
      profile := profile3 .HIGH .MEDIUM .HIGH },
    { category := "animal_rights_religious_law",
      patterns :=
        [ "\\bcows?\\s+(be\\s+)?protected\\b", "\\bcow\\s+protection\\b",
          "\\bethics\\s+of\\s+cow\\b", "\\bprotect.\x7b0,10\x7dcows?\\b" ],
      profile := profile3 .HIGH .LOW .HIGH },
    { category := "food_ethics_animal_rights",
      patterns :=
        [ "\\b(eat|eating)\\s+(meat|animals?)\\b", "\\bvegetarian(ism)?\\b", "\\bvegan(ism)?\\b",
          "\\banimal\\s+rights?\\b", "\\bhalal\\b", "\\bkosher\\b",
          "\\bdietary\\s+law\\b", "\\bethics\\s+of\\s+(eating|food)\\b", "\\bethical\\s+to\\s+eat\\b",
          "\\bstop\\s+eating\\s+animals\\b", "\\barguments?\\s+for\\s+vegetarian\\b",
          "\\breligions?\\s+view.\x7b0,20\x7d(meat|eating)\\b" ],
      profile := profile3 .HIGH .LOW .MEDIUM },
    { category := "economic_policy",
      patterns :=
        [ "\\buniversal\\s+basic\\s+income\\b", "\\bUBI\\b", "\\bwelfare\\s+(state|system)\\b",
          "\\bredistribution\\b", "\\bminimum\\s+wage\\b", "\\bsocialism\\b",
          "\\bcapitalism\\b", "\\bfree\\s+market\\b" ],
      profile := profile3 .LOW .HIGH .LOW },
    { category := "LGBTQ_rights",
      patterns :=
        [ "\\bsame[- ]sex\\s+marriage\\b", "\\bgay\\s+marriage\\b", "\\bLGBTQ?\\+?\\b",
          "\\bhomosexual(ity)?\\b", "\\btransgender\\b", "\\bgender\\s+identity\\b",
          "\\bsexual\\s+orientation\\b", "\\bmarriage\\s+equality\\b",
          "\\bgovernment.\x7b0,20\x7dmarriage\\b", "\\bmarriage.\x7b0,20\x7d(legal|government)\\b" ],
      profile := profile3 .HIGH .HIGH .LOW },
    { category := "gun_rights",
      patterns :=
        [ "\\bgun\\s+control\\b", "\\bgun\\s+rights?\\b", "\\b2nd\\s+amendment\\b",
          "\\bsecond\\s+amendment\\b", "\\bfirearm\\s+regulation\\b", "\\bgun\\s+violence\\b",
          "\\bgun\\s+laws?\\b", "\\bweapon\\s+ban\\b", "\\bgun\\s+polic(y|ies)\\b",
          "\\bprevent\\s+gun\\s+violence\\b" ],
      profile := profile3 .LOW .HIGH .MEDIUM },
    { category := "indigenous_rights_environment",
      patterns :=
        [ "\\bindigenous\\s+(rights?|lands?|peoples?)\\b", "\\bnative\\s+(american|rights?|lands?)\\b",
          "\\btribal\\s+(sovereignty|lands?)\\b", "\\bland\\s+rights?\\b",
          "\\bproperty\\s+rights?.\x7b0,20\x7denvironment\\b", "\\bprotect.\x7b0,20\x7d(land|development)\\b",
          "\\benvironment.\x7b0,20\x7ddevelopment\\b", "\\bdevelopment.\x7b0,20\x7denvironment\\b",
          "\\bbalance.\x7b0,20\x7d(environment|development)\\b", "\\bjobs?.\x7b0,20\x7dland\\b",
          "\\bland.\x7b0,20\x7djobs?\\b", "\\becological.\x7b0,20\x7dimportance\\b" ],
      profile := profile3 .MEDIUM .MEDIUM .HIGH },
    { category := "immigration",
      patterns :=
        [ "\\bimmigra(tion|nt)\\b", "\\bundocumented\\b", "\\billegal\\s+alien\\b",
          "\\bborder\\s+(security|wall|control)\\b", "\\bdeport(ation)?\\b",
          "\\bcitizenship\\s+path\\b", "\\brefugee\\b", "\\basylum\\b", "\\bvisa\\b",
          "\\bsecure\\s+the\\s+border\\b", "\\bborder\\s+communit(y|ies)\\b",
          "\\bamerican\\s+identity\\b" ],
      profile := profile3 .LOW .HIGH .HIGH },
    { category := "disability_rights",
      patterns :=
        [ "\\bautism\\b", "\\bdisability\\s+rights?\\b", "\\bneurodiver(gent|sity)\\b",
          "\\bperson[- ]first\\s+language\\b", "\\bidentity[- ]first\\b",
          "\\bspecial\\s+needs?\\b", "\\baccommodations?\\b", "\\bautistic\\b",
          "\\bcured?\\b.\x7b0,20\x7dautism\\b", "\\bautism.\x7b0,20\x7dcured?\\b",
          "\\bhelp.\x7b0,20\x7dautistic\\b", "\\bcauses?\\s+autism\\b",
          "\\bsupport.\x7b0,20\x7dneurodivergent\\b" ],
      profile := profile3 .LOW .LOW .MEDIUM },
    { category := "gender_religious_freedom",
      patterns :=
        [ "\\bhijab\\b", "\\bburqa\\b", "\\bniqab\\b", "\\bheadscarf\\b",
          "\\bwomen.\x7b0,20\x7d(wear|required|forced)\\b", "\\breligious\\s+dress\\b" ],
      profile := profile3 .HIGH .MEDIUM .HIGH },
    { category := "religious_law",
      patterns :=
        [ "\\breligious\\s+law\\b", "\\bsharia\\b", "\\bchurch\\s+law\\b",
          "\\breligious.\x7b0,20\x7d(state|enforced)\\b", "\\btheocra(cy|tic)\\b",
          "\\bdietary\\s+laws?.\x7b0,20\x7d(state|enforced)\\b" ],
      profile := profile3 .HIGH .MEDIUM .LOW } ]

/-- `detect_controversy` from `src/controversy.py`: the rule-based classifier.
`search pat text` stands for `re.search(pat, text, re.IGNORECASE) is not None`.
The factual check runs first; then the topic groups are scanned in declaration
order, first matching pattern of the first matching group winning; otherwise a
LOW/LOW/LOW default is returned. -/
def detect_controversy (search : String → String → Bool) (query : String) :
    ControversyProfile × Option String :=
  let query_lower := py_lower query
  if FACTUAL_PATTERNS.any (fun pattern => search pattern query_lower) then
    (profile3 .NONE .NONE .NONE, none)
  else
    match TOPIC_PATTERNS.find?
        (fun topic_data => topic_data.patterns.any (fun pattern => search pattern query_lower)) with
    | some topic_data => (topic_data.profile, some topic_data.category)
    | none => (profile3 .LOW .LOW .LOW, none)

/-! ## `src/controversy.py`: model-backed classifier

`json.loads` yields a dynamically typed Python value, modelled by `PyVal`.
The OpenAI client and the JSON parser are external primitives, passed as
parameters: `call model prompt` stands for the chat-completion round trip
returning either the response content or a raised exception, and
`jsonParse` stands for `json.loads` (`Except.error` = raised exception).
The prompt template string is out of scope (spec: rendering is an opaque
`render` function), passed as the `render` parameter. -/

/-- Dynamically typed JSON value as produced by Python's `json.loads`. -/
inductive PyVal where
  | pstr (s : String)
  | pnum (n : Int)
  | pbool (b : Bool)
  | pnull
  | plist (items : List PyVal)
  | pdict (fields : List (String × PyVal))

/-- Python `dict.get(k)` on a parsed JSON object: `none` when the key is
absent. -/
def dict_get (fields : List (String × PyVal)) (k : String) : Option PyVal :=
  (fields.find? (fun f => f.1 == k)).map (fun f => f.2)

/-- `_parse_level` from `src/controversy.py`: case-insensitive level lookup,
anything unrecognized defaults to LOW. -/
def _parse_level (level_str : String) : ControversyLevel :=
  let l := py_lower level_str
  if l == "none" then ControversyLevel.NONE
  else if l == "low" then ControversyLevel.LOW
  else if l == "medium" then ControversyLevel.MEDIUM
  else if l == "high" then ControversyLevel.HIGH
  else ControversyLevel.LOW

/-- Evaluation of `_parse_level(result.get(k, "low"))`: a present but
non-string value raises (`.lower()` on a non-string) and is caught by the
surrounding `try`. -/
def pyval_level_field (fields : List (String × PyVal)) (k : String) :
    Except String ControversyLevel :=
  match (dict_get fields k).getD (PyVal.pstr "low") with
  | PyVal.pstr s => Except.ok (_parse_level s)
  | _ => Except.error "AttributeError"

/-- Evaluation of `result.get(k, [])` for the `divergent_communities` field.
The Python dataclass stores the raw value; the typed model keeps its string
elements (a non-list or non-string element never raises in the source). -/
def pyval_str_list (fields : List (String × PyVal)) (k : String) : List String :=
  match (dict_get fields k).getD (PyVal.plist []) with
  | PyVal.plist items => items.filterMap (fun v => match v with
      | PyVal.pstr s => some s
      | _ => none)
  | _ => []

/-- Evaluation of `result.get(k, "")` for the `reasoning` field (raw value
stored; the typed model keeps it when it is a string). -/
def pyval_str_field (fields : List (String × PyVal)) (k : String) : String :=
  match (dict_get fields k).getD (PyVal.pstr "") with
  | PyVal.pstr s => s
  | _ => ""

/-- Evaluation of `result.get(k)` for `topic_category` and
`intra_community_contrast`: absent or JSON `null` becomes `none`. -/
def pyval_opt_str (fields : List (String × PyVal)) (k : String) : Option String :=
  match dict_get fields k with
  | some (PyVal.pstr s) => some s
  | _ => none

/-- Code-fence stripping and whitespace trimming applied to the raw response
content in `detect_controversy_llm` (`src/controversy.py` lines 169-177):
`.strip()`, then if it starts with three backticks take `split("```")[1]` and
drop a leading `json`, then `.strip()` again. -/
def clean_response_text (raw : String) : String :=
  let result_text := py_strip raw
  let result_text :=
    if py_startswith result_text "```" then
      let t := (py_split_ticks result_text).getD 1 ""
      if py_startswith t "json" then py_drop t 4 else t
    else result_text
  py_strip result_text

/-- Body of the `try` block of `detect_controversy_llm` after the client call:
clean the response text, `json.loads` it, and build the profile from the
resulting dict.  Any raised exception surfaces as `Except.error`. -/
def parse_llm_response (jsonParse : String → Except String PyVal) (raw : String) :
    Except String (ControversyProfile × Option String) := do
  let result ← jsonParse (clean_response_text raw)
  let fields ← match result with
    | PyVal.pdict fs => Except.ok fs
    | _ => Except.error "AttributeError"
  let religious ← pyval_level_field fields "religious_level"
  let political ← pyval_level_field fields "political_level"
  let regional ← pyval_level_field fields "regional_level"
  Except.ok
    ({ religious, political, regional,
       divergent_communities := pyval_str_list fields "divergent_communities",
       reasoning := pyval_str_field fields "reasoning",
       intra_community_contrast := pyval_opt_str fields "intra_community_contrast" },
     pyval_opt_str fields "topic_category")

/-- User identity string built by `detect_controversy_llm`: `"unknown"` when
no (or an empty) community list is given, else the `" + "`-join of the
non-empty entries. -/
def build_user_identity (user_communities : Option (List String)) : String :=
  match user_communities with
  | none => "unknown"
  | some cs =>
      if cs.isEmpty then "unknown"
      else py_join " + " (cs.filter (fun c => !(c == "")))

/-- `detect_controversy_llm` from `src/controversy.py`.  With no client it
returns the rule-based result directly; otherwise it renders the prompt,
performs the call and parses the response, falling back to the rule-based
classifier on any raised error. -/
def detect_controversy_llm (search : String → String → Bool)
    (render : String → String → String)
    (jsonParse : String → Except String PyVal)
    (llm_client : Option (String → String → Except String String))
    (query : String) (model : String) (user_communities : Option (List String)) :
    ControversyProfile × Option String :=
  match llm_client with
  | none => detect_controversy search query
  | some call =>
      let prompt := render query (build_user_identity user_communities)
      match (call model prompt).bind (parse_llm_response jsonParse) with
      | Except.ok res => res
      | Except.error _ => detect_controversy search query

/-! ## `src/cache.py`: consistency cache

The SQLite table `perspective_cache` is modelled as a list of rows; its
`cache_key UNIQUE` constraint is what the upsert and the keyed lookup rely
on.  `hashlib.sha256(...).hexdigest()[:32]` is Python-stdlib, modelled as an
abstract pure function `sha256_hex32`; timestamps are abstract instants
(`Nat`, seconds), with `timedelta(days=d)` = `d * 86400`. -/

/-- One row of the `perspective_cache` table created by `init_cache_table`
(the autoincrement `id` is represented by the row's position). -/
structure CacheRow where
  cache_key : String
  community : String
  topic_category : String
  query_normalized : String
  perspective_text : String
  created_at : Nat
  expires_at : Nat
  hit_count : Nat
deriving DecidableEq, Repr

/-- `_normalize_query` from `src/cache.py`: lowercase, strip, then collapse
whitespace runs via `" ".join(s.split())`. -/
def _normalize_query (query : String) : String :=
  let normalized := py_strip (py_lower query)
  py_join " " (py_split_ws normalized)

/-- `_generate_cache_key` from `src/cache.py`: hash of
`f"{community}|{topic_category}|{normalized_query}"`. -/
def _generate_cache_key (sha256_hex32 : String → String)
    (community topic_category query : String) : String :=
  let normalized_query := _normalize_query query
  let key_string := community ++ "|" ++ topic_category ++ "|" ++ normalized_query
  sha256_hex32 key_string

/-- `get_cached_perspective` from `src/cache.py`: select the row with the
computed key; if present and `expires_at > now`, bump its hit count and
return its text, otherwise leave the table unchanged and return nothing. -/
def get_cached_perspective (sha256_hex32 : String → String)
    (community topic_category query : String) (now : Nat) (table : List CacheRow) :
    Option String × List CacheRow :=
  let cache_key := _generate_cache_key sha256_hex32 community topic_category query
  match table.find? (fun r => r.cache_key == cache_key) with
  | some row =>
      if now < row.expires_at then
        (some row.perspective_text,
         table.map (fun r =>
           if r.cache_key == cache_key then { r with hit_count := r.hit_count + 1 } else r))
      else (none, table)
  | none => (none, table)

/-- `store_cached_perspective` from `src/cache.py`: upsert keyed on
`cache_key` — `ON CONFLICT(cache_key) DO UPDATE` overwrites only
`perspective_text`, `created_at` and `expires_at` of the conflicting row;
otherwise a fresh row with `hit_count = 0` is inserted. -/
def store_cached_perspective (sha256_hex32 : String → String)
    (community topic_category query perspective_text : String)
    (ttl_days now : Nat) (table : List CacheRow) : List CacheRow :=
  let cache_key := _generate_cache_key sha256_hex32 community topic_category query
  let normalized_query := _normalize_query query
  let expires_at := now + ttl_days * 86400
  if table.any (fun r => r.cache_key == cache_key) then
    table.map (fun r =>
      if r.cache_key == cache_key then
        { r with perspective_text := perspective_text,
                 created_at := now, expires_at := expires_at }
      else r)
  else
    table ++ [{ cache_key, community, topic_category, query_normalized := normalized_query,
                perspective_text, created_at := now, expires_at := expires_at,
                hit_count := 0 }]

/-- `clear_expired_cache` from `src/cache.py`: `DELETE ... WHERE expires_at
< now`, returning the number of rows removed (`rowcount`). -/
def clear_expired_cache (now : Nat) (table : List CacheRow) : Nat × List CacheRow :=
  let remaining := table.filter (fun r => !(decide (r.expires_at < now)))
  (table.length - remaining.length, remaining)

/-! ## `src/community_selection.py`: community selector

`community_selection.py` imports `Community`, `CommunityTier`, `get_community`
and `get_community_name` from the `communities` module, which is not part of
the sources (only its callers are).  The spec describes it as a static
registry mapping community ids to display names and a tier classification, so
the registry is passed as two abstract parameters (`get_community`,
`get_community_name`); every theorem below holds for every registry. -/

/-- Modelled from the spec: the tier classification of the `communities`
registry (religious / political / professional / identity / other), absent
from src/.  Constructor names follow the usages visible in
`src/prompts.py`. -/
inductive CommunityTier where
  | TIER_1_RELIGIOUS
  | TIER_2_POLITICAL
  | TIER_4_PROFESSIONAL
  | TIER_5_IDENTITY
  | TIER_OTHER
deriving DecidableEq, Repr

/-- Modelled from the spec: one registry entry of the `communities` module
(display name and tier), absent from src/. -/
structure Community where
  name : String
  tier : CommunityTier
deriving DecidableEq, Repr

/-- The `UserProfile` dataclass of `src/community_selection.py`. -/
structure UserProfile where
  user_id : String
  primary_community_type : String
  primary_community : String
  community_strength : String
  secondary_community_type : Option String
  secondary_community : Option String
  secondary_strength : Option String
  tertiary_community_type : Option String
  tertiary_community : Option String
  age_range : Option String
  education : Option String
  location : Option String
deriving DecidableEq, Repr

/-- `UserProfile.get_communities`: `[primary]` plus secondary/tertiary when
truthy (Python: `None` and the empty string are both falsy). -/
def UserProfile.get_communities (user : UserProfile) : List String :=
  [user.primary_community] ++
  (match user.secondary_community with
   | some s => if s == "" then [] else [s]
   | none => []) ++
  (match user.tertiary_community with
   | some s => if s == "" then [] else [s]
   | none => [])

/-- `UserProfile.is_religious`. -/
def UserProfile.is_religious (user : UserProfile) : Bool :=
  user.primary_community_type == "religious"

/-- `UserProfile.is_secular`. -/
def UserProfile.is_secular (user : UserProfile) : Bool :=
  user.primary_community_type == "secular"

/-- `UserProfile.is_political`. -/
def UserProfile.is_political (user : UserProfile) : Bool :=
  user.primary_community_type == "political"

/-- The `SelectedCommunities` dataclass of `src/community_selection.py`. -/
structure SelectedCommunities where
  baseline : String
  additional : List String
  rationale : String
deriving DecidableEq, Repr

/-- `SelectedCommunities.all_communities`. -/
def SelectedCommunities.all_communities (s : SelectedCommunities) : List String :=
  [s.baseline] ++ s.additional

/-- Per-topic candidate lists of one `TOPIC_COMMUNITY_MAPPINGS` entry.  Each
field is `none` when the Python dict lacks that key (the source reads them
with `dict.get(key, default)`). -/
structure TopicCommunities where
  religious : Option (List String) := none
  political : Option (List String) := none
  professional : Option (List String) := none
  identity : Option (List String) := none
  secular : Option (List String) := none
  regional : Option (List String) := none
deriving DecidableEq, Repr

/-- `TOPIC_COMMUNITY_MAPPINGS` from `src/community_selection.py`. -/
def TOPIC_COMMUNITY_MAPPINGS : List (String × TopicCommunities) :=
  [ ("reproductive_rights",
     { religious := some ["Catholic", "evangelical_protestant", "reform_jewish", "Muslim_Sunni"],
       political := some ["progressive", "conservative", "libertarian"],
       identity := some ["women", "feminist"] }),
    ("climate_environment",
     { professional := some ["climate_scientist", "environmental_scientist", "economist"],
       political := some ["progressive", "conservative", "libertarian", "environmentalist"],
       regional := some ["Global_South", "indigenous"] }),
    ("church_state_separation",
     { religious := some ["Muslim_Sunni", "Sikh", "evangelical_protestant", "Catholic"],
       secular := some ["atheist"],
       political := some ["progressive", "conservative", "libertarian"] }),
    ("food_ethics_animal_rights",
     { religious := some ["Hindu", "Buddhist", "Jain", "Muslim_Sunni", "Jewish_Orthodox"],
       identity := some ["vegetarian", "animal_rights_activist"],
       professional := some ["environmental_scientist"] }),
    ("economic_policy",
     { political := some ["progressive", "conservative", "libertarian", "socialist"],
       professional := some ["economist"],
       identity := some ["working_class", "labor_union"] }),
    ("LGBTQ_rights",
     { religious := some ["evangelical_protestant", "Catholic", "reform_jewish", "mainline_protestant"],
       political := some ["progressive", "conservative", "libertarian"],
       identity := some ["LGBTQ_gay"] }),
    ("gun_rights",
     { political := some ["progressive", "conservative", "libertarian"],
       professional := some ["law_enforcement"],
       identity := some ["gun_owner", "gun_violence_survivor", "parent"] }),
    ("indigenous_rights_environment",
     { identity := some ["indigenous", "local_community"],
       political := some ["progressive", "conservative", "libertarian", "environmentalist"],
       professional := some ["environmental_scientist"] }),
    ("immigration",
     { political := some ["progressive", "conservative", "libertarian"],
       identity := some ["immigrant", "second_generation"],
       regional := some ["border_community"],
       professional := some ["economist"] }),
    ("disability_rights",
     { identity := some ["neurodivergent", "parent_of_disabled", "disability_rights_advocate"],
       professional := some ["medical_researcher", "educator"] }),
    ("gender_religious_freedom",
     { religious := some ["Muslim_Sunni", "Sikh"],
       political := some ["progressive", "conservative", "libertarian"],
       identity := some ["feminist", "women"] }),
    ("religious_law",
     { religious := some ["Muslim_Sunni", "Catholic", "Jewish_Orthodox", "evangelical_protestant"],
       secular := some ["atheist"],
       political := some ["progressive", "conservative", "libertarian"] }) ]

/-- `TOPIC_COMMUNITY_MAPPINGS.get(topic_category, {})` for a present key. -/
def lookup_topic_mapping (t : String) : Option TopicCommunities :=
  (TOPIC_COMMUNITY_MAPPINGS.find? (fun e => e.1 == t)).map (fun e => e.2)

/-- Religious rule of `select_communities` (`src/community_selection.py`
lines 178-189): for a religiously affiliated user propose the secular
counterpoint unless "atheist" is already among their communities; otherwise
propose the first topic-relevant religious community (default pair
Catholic/evangelical_protestant) the user does not hold. -/
def religious_opposition (user : UserProfile) (controversy_profile : ControversyProfile)
    (topic_communities : TopicCommunities) : List (String × String) :=
  if inHighControversy controversy_profile.religious then
    if user.is_religious then
      if !(user.get_communities.contains "atheist") then
        [("secular_progressive", "secular counterpoint")]
      else []
    else
      let religious_options := topic_communities.religious.getD ["Catholic", "evangelical_protestant"]
      match religious_options.find? (fun comm => !(user.get_communities.contains comm)) with
      | some comm => [(comm, "religious perspective")]
      | none => []
  else []

/-- The `user_politics` computation of `select_communities` (lines 193-197):
the political affiliation from whichever of primary/secondary is typed
"political". -/
def user_politics (user : UserProfile) : Option String :=
  if user.primary_community_type == "political" then some user.primary_community
  else if user.secondary_community_type == some "political" then user.secondary_community
  else none

/-- Political rule of `select_communities` (lines 191-209): fixed opposition
table on the user's political leaning. -/
def political_opposition (user : UserProfile) (controversy_profile : ControversyProfile) :
    List (String × String) :=
  if inHighControversy controversy_profile.political then
    let up := user_politics user
    if up == some "progressive" || up == some "socialist" then
      [("conservative", "conservative political perspective")]
    else if up == some "conservative" then
      [("progressive", "progressive political perspective")]
    else if up == some "libertarian" then
      [("progressive", "progressive perspective"), ("conservative", "conservative perspective")]
    else
      [("progressive", "progressive perspective")]
  else []

/-- Identity rule of `select_communities` (lines 211-221): per relevant
identity community, either annotate the rationale (user already holds it) or
add it as a candidate when the registry classifies it at the identity tier.
Returns (candidates, rationale annotations) in source order. -/
def identity_rule (get_community : String → Option Community)
    (get_community_name : String → String) (user : UserProfile) :
    List String → List (String × String) × List String
  | [] => ([], [])
  | identity_comm :: rest =>
      let prev := identity_rule get_community get_community_name user rest
      if user.get_communities.contains identity_comm then
        (prev.1, ("User is directly affected as " ++ get_community_name identity_comm) :: prev.2)
      else
        match get_community identity_comm with
        | some community =>
            if community.tier == CommunityTier.TIER_5_IDENTITY then
              ((identity_comm,
                get_community_name identity_comm ++ " perspective (affected community)") :: prev.1,
               prev.2)
            else prev
        | none => prev

/-- Professional rule of `select_communities` (lines 223-228): first
topic-relevant professional community the user does not hold. -/
def professional_rule (get_community_name : String → String) (user : UserProfile)
    (professional_communities : List String) : List (String × String) :=
  match professional_communities.find? (fun prof_comm => !(user.get_communities.contains prof_comm)) with
  | some prof_comm => [(prof_comm, get_community_name prof_comm ++ " expertise")]
  | none => []

/-- Candidate acceptance loop of `select_communities` (lines 230-236):
append candidates in order, skipping any already `seen` (the user's own
communities plus earlier acceptances) and stopping at `max_additional`. -/
def select_loop (get_community_name : String → String) (max_additional : Nat) :
    List String → List String → List String → List (String × String) →
    List String × List String
  | _, additional, rationale_parts, [] => (additional, rationale_parts)
  | seen, additional, rationale_parts, (candidate, reason) :: rest =>
      if !(seen.contains candidate) && decide (additional.length < max_additional) then
        select_loop get_community_name max_additional (candidate :: seen)
          (additional ++ [candidate])
          (rationale_parts ++ ["Added " ++ get_community_name candidate ++ ": " ++ reason])
          rest
      else
        select_loop get_community_name max_additional seen additional rationale_parts rest

/-- `select_communities` from `src/community_selection.py`. -/
def select_communities (get_community : String → Option Community)
    (get_community_name : String → String)
    (user : UserProfile) (controversy_profile : ControversyProfile)
    (topic_category : Option String) (max_additional : Nat) : SelectedCommunities :=
  let baseline := user.primary_community
  if !controversy_profile.should_surface_perspectives then
    { baseline, additional := [],
      rationale := "Low controversy topic; standard response provided." }
  else
    let active_dimensions := get_controversy_dimensions controversy_profile
    let topic_communities := (topic_category.bind lookup_topic_mapping).getD {}
    let identity_part :=
      identity_rule get_community get_community_name user (topic_communities.identity.getD [])
    let candidates :=
      religious_opposition user controversy_profile topic_communities ++
      political_opposition user controversy_profile ++
      identity_part.1 ++
      professional_rule get_community_name user (topic_communities.professional.getD [])
    let seen := user.get_communities
    let picked := select_loop get_community_name max_additional seen [] identity_part.2 candidates
    let rationale :=
      "Topic has " ++ py_join ", " active_dimensions ++ " controversy. " ++
      (if picked.2.isEmpty then "" else py_join " " picked.2)
    { baseline, additional := picked.1, rationale }

/-! ## Definitions taken from the spec's words (for refinement claims) -/

/-- Spec-side ordering `NONE < LOW < MEDIUM < HIGH` on controversy levels, as
a numeric rank (claim C2's wording). -/
def spec_level_rank : ControversyLevel → Nat
  | ControversyLevel.NONE => 0
  | ControversyLevel.LOW => 1
  | ControversyLevel.MEDIUM => 2
  | ControversyLevel.HIGH => 3

/-- Spec-side maximum of two controversy levels under that ordering. -/
def spec_level_max (a b : ControversyLevel) : ControversyLevel :=
  if spec_level_rank a ≤ spec_level_rank b then b else a

/-- Spec-side fixed political opposition table (claim C6's wording):
progressive/socialist get a conservative candidate, conservative gets a
progressive one, libertarian gets both, anything else gets progressive
only. -/
def spec_political_opposition (up : Option String) : List String :=
  if up == some "progressive" || up == some "socialist" then ["conservative"]
  else if up == some "conservative" then ["progressive"]
  else if up == some "libertarian" then ["progressive", "conservative"]
  else ["progressive"]

/-! ## Concrete instances used to evaluate the theorems -/

/-- Concrete matcher standing in for `re.search` at two specific
(pattern, lowercased text) pairs, used to evaluate the classifier theorems. -/
def sample_search (pattern text : String) : Bool :=
  (pattern == "\\bcapital\\s+of\\b" && text == "what is the capital of france?") ||
  (pattern == "\\babortion\\b" && text == "is abortion wrong?")

/-- Concrete prompt renderer (returns the question unchanged). -/
def sample_render (question _identity_str : String) : String := question

/-- Concrete JSON parser recognising exactly the empty object. -/
def sample_json_loads (s : String) : Except String PyVal :=
  if s == "\x7b\x7d" then Except.ok (PyVal.pdict []) else Except.error "Expecting value"

/-- Concrete generation client that always answers the empty JSON object. -/
def sample_llm_call (_model _prompt : String) : Except String String :=
  Except.ok "\x7b\x7d"

/-- Concrete hash (identity) standing in for sha256 in cache evaluations. -/
def sample_sha (s : String) : String := s

/-- Concrete registry used in selector evaluations: classifies "women" at the
identity tier and knows nothing else. -/
def sample_registry (comm : String) : Option Community :=
  if comm == "women" then some { name := "Women", tier := CommunityTier.TIER_5_IDENTITY }
  else none

/-- Concrete display-name function (identity). -/
def sample_names (comm : String) : String := comm

/-- Concrete religiously affiliated user. -/
def sample_religious_user : UserProfile :=
  { user_id := "u1", primary_community_type := "religious", primary_community := "Hindu",
    community_strength := "strong", secondary_community_type := none,
    secondary_community := none, secondary_strength := none,
    tertiary_community_type := none, tertiary_community := none,
    age_range := none, education := none, location := none }

/-- Concrete libertarian user. -/
def sample_libertarian_user : UserProfile :=
  { user_id := "u2", primary_community_type := "political", primary_community := "libertarian",
    community_strength := "strong", secondary_community_type := none,
    secondary_community := none, secondary_strength := none,
    tertiary_community_type := none, tertiary_community := none,
    age_range := none, education := none, location := none }

/-- Concrete cache row used to evaluate the cache theorems. -/
def sample_row : CacheRow :=
  { cache_key := "Hindu|food|is it wrong to eat meat?", community := "Hindu",
    topic_category := "food", query_normalized := "is it wrong to eat meat?",
    perspective_text := "old text", created_at := 0, expires_at := 5, hit_count := 7 }

/-! ## Helper lemmas -/

theorem find?_map_of_pred_eq {α : Type} (f : α → α) (p : α → Bool)
    (hf : ∀ a, p (f a) = p a) :
    ∀ l : List α, (l.map f).find? p = (l.find? p).map f := by
  intro l
  induction l with
  | nil => rfl
  | cons a l ih =>
      simp only [List.map_cons, List.find?_cons, hf a]
      cases h : p a
      · exact ih
      · rfl

theorem find?_eq_none_of_any_eq_false {α : Type} (p : α → Bool) (l : List α)
    (h : l.any p = false) : l.find? p = none := by
  rw [List.find?_eq_none]
  intro x hx hpx
  have : l.any p = true := List.any_eq_true.mpr ⟨x, hx, hpx⟩
  rw [h] at this
  exact Bool.false_ne_true this

theorem find?_append_of_left_none {α : Type} (p : α → Bool) (l₁ l₂ : List α)
    (h : l₁.find? p = none) : (l₁ ++ l₂).find? p = l₂.find? p := by
  induction l₁ with
  | nil => rfl
  | cons a l ih =>
      simp only [List.cons_append, List.find?_cons] at h ⊢
      cases hp : p a
      · simp only [hp] at h ⊢; exact ih h
      · simp [hp] at h

/-- The upsert's per-row update function of `store_cached_perspective`. -/
theorem store_update_preserves_key (key text : String) (now expires : Nat) :
    ∀ r : CacheRow,
      ((if r.cache_key == key then
          { r with perspective_text := text, created_at := now, expires_at := expires }
        else r).cache_key == key) = (r.cache_key == key) := by
  intro r
  by_cases h : r.cache_key == key <;> simp [h]

/-! ## Claim theorems: consistency cache -/

/-- C1: storing a perspective for (community, topic, query) and immediately
reading it back with any query that normalizes identically (same fingerprint,
e.g. differing only in case or extra whitespace) returns exactly the stored
text; with a positive TTL the fresh entry is unexpired. -/
theorem cache_round_trip (sha : String → String) (c t q q2 text : String)
    (ttl now : Nat) (table : List CacheRow)
    (hq : _normalize_query q2 = _normalize_query q) (httl : 0 < ttl) :
    (get_cached_perspective sha c t q2 now
        (store_cached_perspective sha c t q text ttl now table)).1 = some text := by
  have hkey : _generate_cache_key sha c t q2 = _generate_cache_key sha c t q := by
    unfold _generate_cache_key
    rw [hq]
  have hfresh : now < now + ttl * 86400 := by
    have := Nat.mul_pos httl (by norm_num : 0 < 86400)
    omega
  simp only [get_cached_perspective, store_cached_perspective, hkey]
  by_cases hany : table.any
      (fun r => r.cache_key == _generate_cache_key sha c t q) = true
  · simp only [hany, if_true]
    rw [find?_map_of_pred_eq _ _
      (store_update_preserves_key (_generate_cache_key sha c t q) text now (now + ttl * 86400))]
    cases hfind : table.find? (fun r => r.cache_key == _generate_cache_key sha c t q) with
    | none =>
        obtain ⟨x, hx, hpx⟩ := List.any_eq_true.mp hany
        exact absurd hpx (List.find?_eq_none.mp hfind x hx)
    | some row =>
        have hpred := List.find?_some hfind
        have hp : row.cache_key = _generate_cache_key sha c t q := by
          exact beq_iff_eq.mp hpred
        simp [hp, hfresh]
  · simp only [Bool.not_eq_true] at hany
    simp only [hany, Bool.false_eq_true, if_false]
    rw [find?_append_of_left_none _ _ _ (find?_eq_none_of_any_eq_false _ _ hany)]
    simp [hfresh]

/-- Witness: a concrete round trip through the cache, the read-back query
differing from the stored one in case and whitespace only. -/
theorem cache_round_trip_witness :
    _normalize_query " Is it WRONG to eat  meat? " = _normalize_query "is it wrong to eat meat?" ∧
    (get_cached_perspective sample_sha "Hindu" "food" " Is it WRONG to eat  meat? " 0
        (store_cached_perspective sample_sha "Hindu" "food" "is it wrong to eat meat?"
          "text1" 30 0 [])).1 = some "text1" :=
  ⟨by decide,
   cache_round_trip sample_sha "Hindu" "food" "is it wrong to eat meat?"
     " Is it WRONG to eat  meat? " "text1" 30 0 [] (by decide) (by decide)⟩

/-- C8: an entry whose `expires_at` is in the past is never returned by
`get_cached_perspective` (the read is a miss and leaves the table unchanged),
and `clear_expired_cache` removes exactly the rows with `expires_at < now`,
returning their number. -/
theorem cache_expiry_semantics (sha : String → String) (c t q : String) (now : Nat)
    (table : List CacheRow) (row : CacheRow)
    (hfind : table.find? (fun r => r.cache_key == _generate_cache_key sha c t q) = some row)
    (hexp : row.expires_at < now) :
    get_cached_perspective sha c t q now table = (none, table) ∧
    (∀ r ∈ (clear_expired_cache now table).2, ¬ r.expires_at < now) ∧
    (∀ r ∈ table, ¬ r.expires_at < now → r ∈ (clear_expired_cache now table).2) ∧
    (clear_expired_cache now table).1 = table.countP (fun r => decide (r.expires_at < now)) := by
  refine ⟨?_, ?_, ?_, ?_⟩
  · simp only [get_cached_perspective, hfind]
    have : ¬ now < row.expires_at := by omega
    simp [this]
  · intro r hr
    have := (List.mem_filter.mp hr).2
    simpa using this
  · intro r hr hnr
    exact List.mem_filter.mpr ⟨hr, by simpa using hnr⟩
  · simp only [clear_expired_cache]
    have hf : (table.filter (fun r => !decide (r.expires_at < now))).length
        = table.countP (fun r => !decide (r.expires_at < now)) :=
      (List.countP_eq_length_filter _ table).symm
    have hsplit := List.length_eq_countP_add_countP
      (fun r : CacheRow => decide (r.expires_at < now)) table
    have hc : table.countP (fun a : CacheRow => decide (¬ decide (a.expires_at < now) = true))
        = table.countP (fun r => !decide (r.expires_at < now)) := by
      apply List.countP_congr
      intro r _
      simp
    rw [hf]
    rw [hc] at hsplit
    omega

/-- Witness: a concrete expired row is missed by the read and counted and
removed by the sweep. -/
theorem cache_expiry_semantics_witness :
    get_cached_perspective sample_sha "Hindu" "food" "is it wrong to eat meat?" 10 [sample_row]
      = (none, [sample_row]) ∧
    (clear_expired_cache 10 [sample_row]).1 = 1 :=
  ⟨(cache_expiry_semantics sample_sha "Hindu" "food" "is it wrong to eat meat?" 10
      [sample_row] sample_row (by decide) (by decide)).1,
   by decide⟩

/-- C10: re-storing under an existing fingerprint overwrites only the row's
`perspective_text`, `created_at` and `expires_at`; its `hit_count`,
`community`, `topic_category` and `query_normalized` keep their originally
stored values, and no new row is created. -/
theorem store_overwrite_preserves_fields (sha : String → String)
    (c t q text : String) (ttl now : Nat) (table : List CacheRow) (row : CacheRow)
    (hfind : table.find? (fun r => r.cache_key == _generate_cache_key sha c t q) = some row) :
    (store_cached_perspective sha c t q text ttl now table).find?
        (fun r => r.cache_key == _generate_cache_key sha c t q)
      = some { row with perspective_text := text, created_at := now,
                        expires_at := now + ttl * 86400 } ∧
    (store_cached_perspective sha c t q text ttl now table).length = table.length := by
  have hpred := List.find?_some hfind
  have hmem : row ∈ table := List.mem_of_find?_eq_some hfind
  have hany : table.any (fun r => r.cache_key == _generate_cache_key sha c t q) = true :=
    List.any_eq_true.mpr ⟨row, hmem, hpred⟩
  have hp : row.cache_key = _generate_cache_key sha c t q := by
    exact beq_iff_eq.mp hpred
  constructor
  · simp only [store_cached_perspective, hany, if_true]
    rw [find?_map_of_pred_eq _ _
      (store_update_preserves_key (_generate_cache_key sha c t q) text now (now + ttl * 86400))]
    rw [hfind]
    simp [hp]
  · simp [store_cached_perspective, hany]

/-- Witness: a concrete overwrite keeps `hit_count = 7` and the original
community/topic/normalized-query columns. -/
theorem store_overwrite_preserves_fields_witness :
    (store_cached_perspective sample_sha "Hindu" "food" "Is it wrong to EAT meat?"
        "new text" 30 20 [sample_row]).find?
        (fun r => r.cache_key ==
          _generate_cache_key sample_sha "Hindu" "food" "Is it wrong to EAT meat?")
      = some { sample_row with perspective_text := "new text", created_at := 20,
                               expires_at := 20 + 30 * 86400 } :=
  (store_overwrite_preserves_fields sample_sha "Hindu" "food" "Is it wrong to EAT meat?"
    "new text" 30 20 [sample_row] sample_row (by decide)).1

/-! ## Claim theorems: controversy classifier -/

/-- C2: `should_surface_perspectives` holds exactly when the maximum of the
three dimension levels, under the ordering NONE < LOW < MEDIUM < HIGH, is at
least MEDIUM. -/
theorem should_surface_iff_max_ge_medium (p : ControversyProfile) :
    p.should_surface_perspectives = true ↔
      spec_level_rank ControversyLevel.MEDIUM ≤
        spec_level_rank (spec_level_max (spec_level_max p.religious p.political) p.regional) := by
  obtain ⟨r, pl, rg, d, re, i⟩ := p
  cases r <;> cases pl <;> cases rg <;>
    simp [ControversyProfile.should_surface_perspectives, inHighControversy,
      spec_level_max, spec_level_rank]

/-- C3: a query matching any factual pattern is classified all-NONE with no
topic category, regardless of which topic patterns it also matches (the
factual check runs first). -/
theorem factual_patterns_take_precedence (search : String → String → Bool) (query : String)
    (h : ∃ pattern ∈ FACTUAL_PATTERNS, search pattern (py_lower query) = true) :
    detect_controversy search query
      = (profile3 ControversyLevel.NONE ControversyLevel.NONE ControversyLevel.NONE, none) := by
  have hany : FACTUAL_PATTERNS.any (fun pattern => search pattern (py_lower query)) = true :=
    List.any_eq_true.mpr h
  simp [detect_controversy, hany]

/-- Witness: the France query matches the factual pattern `\bcapital\s+of\b`
under the concrete matcher and is classified all-NONE. -/
theorem factual_patterns_take_precedence_witness :
    detect_controversy sample_search "What is the capital of France?"
      = (profile3 ControversyLevel.NONE ControversyLevel.NONE ControversyLevel.NONE, none) :=
  factual_patterns_take_precedence sample_search "What is the capital of France?"
    ⟨"\\bcapital\\s+of\\b", by decide, by decide⟩

/-- Counterexample to C5 as stated: a response that is valid JSON but misses
every field is one of the claim's enumerated failure cases, yet the code does
not fall back to the rule-based classifier — it fills the missing fields with
defaults (LOW levels, no topic), which differs from the rule-based result for
a reproductive-rights query. -/
theorem llm_missing_fields_counterexample :
    detect_controversy_llm sample_search sample_render sample_json_loads
        (some sample_llm_call) "Is abortion wrong?" "gpt-4o-mini" none
      ≠ detect_controversy sample_search "Is abortion wrong?" := by
  decide

/-- C5 amended: `detect_controversy_llm` never propagates an error.  With no
client, or when the call raises, or when the response-parsing pipeline raises
(non-JSON, non-object JSON, non-string level field), it returns exactly the
rule-based `detect_controversy` result; a well-formed JSON object with all
fields missing is however not treated as a failure: the levels default to LOW
and the topic to none, without falling back to the rule-based engine. -/
theorem llm_error_handling (search : String → String → Bool)
    (render : String → String → String) (jsonParse : String → Except String PyVal)
    (query model : String) (ucs : Option (List String)) :
    (detect_controversy_llm search render jsonParse none query model ucs
        = detect_controversy search query) ∧
    (∀ call : String → String → Except String String, ∀ e : String,
        (call model (render query (build_user_identity ucs))).bind
            (parse_llm_response jsonParse) = Except.error e →
        detect_controversy_llm search render jsonParse (some call) query model ucs
          = detect_controversy search query) ∧
    (∀ call : String → String → Except String String, ∀ raw : String,
        call model (render query (build_user_identity ucs)) = Except.ok raw →
        jsonParse (clean_response_text raw) = Except.ok (PyVal.pdict []) →
        detect_controversy_llm search render jsonParse (some call) query model ucs
          = (profile3 ControversyLevel.LOW ControversyLevel.LOW ControversyLevel.LOW, none)) := by
  refine ⟨rfl, ?_, ?_⟩
  · intro call e h
    simp only [detect_controversy_llm, h]
  · intro call raw hcall hparse
    have hresp : parse_llm_response jsonParse raw
        = Except.ok (profile3 ControversyLevel.LOW ControversyLevel.LOW ControversyLevel.LOW, none) := by
      unfold parse_llm_response
      rw [hparse]
      rfl
    simp only [detect_controversy_llm, hcall, Except.bind, hresp]

/-- Witness: the amended theorem applied at the concrete all-defaults
response. -/
theorem llm_error_handling_witness :
    detect_controversy_llm sample_search sample_render sample_json_loads (some sample_llm_call)
        "Is abortion wrong?" "gpt-4o-mini" none
      = (profile3 ControversyLevel.LOW ControversyLevel.LOW ControversyLevel.LOW, none) :=
  (llm_error_handling sample_search sample_render sample_json_loads "Is abortion wrong?"
      "gpt-4o-mini" none).2.2 sample_llm_call "\x7b\x7d" rfl rfl

/-! ## Claim theorems: community selector -/

/-- C7: when the controversy profile does not warrant surfacing perspectives,
`select_communities` returns only the baseline with no additional communities
and the fixed low-controversy rationale — for every registry, user, topic
category and cap. -/
theorem low_controversy_baseline_only (get_community : String → Option Community)
    (get_community_name : String → String) (user : UserProfile)
    (cp : ControversyProfile) (topic_category : Option String) (max_additional : Nat)
    (h : cp.should_surface_perspectives = false) :
    select_communities get_community get_community_name user cp topic_category max_additional
      = { baseline := user.primary_community, additional := [],
          rationale := "Low controversy topic; standard response provided." } := by
  simp [select_communities, h]

/-- Witness: scenario B — the France query is classified all-NONE and the
selector returns only the baseline. -/
theorem low_controversy_baseline_only_witness :
    select_communities sample_registry sample_names sample_religious_user
        (detect_controversy sample_search "What is the capital of France?").1
        (detect_controversy sample_search "What is the capital of France?").2 2
      = { baseline := "Hindu", additional := [],
          rationale := "Low controversy topic; standard response provided." } :=
  low_controversy_baseline_only sample_registry sample_names sample_religious_user
    (detect_controversy sample_search "What is the capital of France?").1
    (detect_controversy sample_search "What is the capital of France?").2 2 (by decide)

/-- The selection loop only ever appends to the accumulated list. -/
theorem select_loop_extends (gc : String → String) (mx : Nat) :
    ∀ (cands : List (String × String)) (seen add parts : List String),
      ∃ l, (select_loop gc mx seen add parts cands).1 = add ++ l := by
  intro cands
  induction cands with
  | nil =>
      intro seen add parts
      exact ⟨[], by simp [select_loop]⟩
  | cons cr rest ih =>
      intro seen add parts
      obtain ⟨c, r⟩ := cr
      simp only [select_loop]
      split
      · obtain ⟨l, hl⟩ := ih (c :: seen) (add ++ [c]) _
        exact ⟨c :: l, by rw [hl]; simp⟩
      · exact ih seen add parts

/-- Every element of the loop's result is an initial element or a candidate
key. -/
theorem select_loop_subset (gc : String → String) (mx : Nat) :
    ∀ (cands : List (String × String)) (seen add parts : List String),
      ∀ a ∈ (select_loop gc mx seen add parts cands).1,
        a ∈ add ∨ a ∈ cands.map Prod.fst := by
  intro cands
  induction cands with
  | nil =>
      intro seen add parts a ha
      simp only [select_loop] at ha
      exact Or.inl ha
  | cons cr rest ih =>
      intro seen add parts a ha
      obtain ⟨c, r⟩ := cr
      simp only [select_loop] at ha
      split at ha
      · rcases ih _ _ _ a ha with h | h
        · rcases List.mem_append.mp h with h' | h'
          · exact Or.inl h'
          · simp only [List.mem_singleton] at h'
            exact Or.inr (by simp [h'])
        · exact Or.inr (by simp [h])
      · rcases ih _ _ _ a ha with h | h
        · exact Or.inl h
        · exact Or.inr (by simp [h])

/-- Invariant of the selection loop: starting from a duplicate-free
accumulator covered by `seen`, the result is duplicate-free, its new elements
were not `seen` initially, and the cap is respected. -/
theorem select_loop_invariant (gc : String → String) (mx : Nat) :
    ∀ (cands : List (String × String)) (seen add parts : List String),
      add.Nodup → (∀ a ∈ add, seen.contains a = true) →
      ((select_loop gc mx seen add parts cands).1.Nodup ∧
       (∀ a ∈ (select_loop gc mx seen add parts cands).1,
          a ∈ add ∨ seen.contains a = false) ∧
       (add.length ≤ mx → (select_loop gc mx seen add parts cands).1.length ≤ mx)) := by
  intro cands
  induction cands with
  | nil =>
      intro seen add parts h1 h2
      simp only [select_loop]
      exact ⟨h1, fun a ha => Or.inl ha, fun h => h⟩
  | cons cr rest ih =>
      intro seen add parts h1 h2
      obtain ⟨c, r⟩ := cr
      simp only [select_loop]
      split
      case isTrue hcond =>
        have hparts := Bool.and_eq_true _ _ |>.mp hcond
        have hc : seen.contains c = false := by
          have := hparts.1
          simpa using this
        have hlen : add.length < mx := of_decide_eq_true hparts.2
        have hcadd : c ∉ add := by
          intro hmem
          rw [h2 c hmem] at hc
          exact Bool.noConfusion hc
        have hnodup : (add ++ [c]).Nodup := by
          simp [List.nodup_append, h1, hcadd]
        have hseen : ∀ a ∈ add ++ [c], (c :: seen).contains a = true := by
          intro a ha
          simp only [List.contains_cons, Bool.or_eq_true]
          rcases List.mem_append.mp ha with h' | h'
          · exact Or.inr (h2 a h')
          · simp only [List.mem_singleton] at h'
            exact Or.inl (by simp [h'])
        obtain ⟨ih1, ih2, ih3⟩ := ih (c :: seen) (add ++ [c]) _ hnodup hseen
        refine ⟨ih1, ?_, ?_⟩
        · intro a ha
          rcases ih2 a ha with h | h
          · rcases List.mem_append.mp h with h' | h'
            · exact Or.inl h'
            · simp only [List.mem_singleton] at h'
              subst h'
              exact Or.inr hc
          · right
            rw [List.contains_cons] at h
            exact (Bool.or_eq_false_iff.mp h).2
        · intro _
          refine ih3 ?_
          simp only [List.length_append, List.length_singleton]
          omega
      case isFalse =>
        exact ih seen add parts h1 h2

/-- When the candidate keys are duplicate-free, the loop computes exactly the
keys not yet seen, truncated at the remaining capacity. -/
theorem select_loop_keys (gc : String → String) (mx : Nat) :
    ∀ (cands : List (String × String)) (seen add parts : List String),
      (cands.map Prod.fst).Nodup →
      (select_loop gc mx seen add parts cands).1
        = add ++ ((cands.map Prod.fst).filter
            (fun c => !(seen.contains c))).take (mx - add.length) := by
  intro cands
  induction cands with
  | nil =>
      intro seen add parts _
      simp [select_loop]
  | cons cr rest ih =>
      intro seen add parts hnd
      obtain ⟨c, r⟩ := cr
      simp only [List.map_cons, List.nodup_cons] at hnd
      obtain ⟨hcrest, hndrest⟩ := hnd
      simp only [select_loop]
      split
      case isTrue hcond =>
        have hparts := Bool.and_eq_true _ _ |>.mp hcond
        have hc : seen.contains c = false := by
          have := hparts.1
          simpa using this
        have hlen : add.length < mx := of_decide_eq_true hparts.2
        rw [ih (c :: seen) (add ++ [c]) _ hndrest]
        have hfilter : (rest.map Prod.fst).filter (fun x => !((c :: seen).contains x))
            = (rest.map Prod.fst).filter (fun x => !(seen.contains x)) := by
          apply List.filter_congr
          intro x hx
          have hxc : (x == c) = false := by
            cases hb : (x == c)
            · rfl
            · exact absurd (by simpa using hb : x = c) (fun he => hcrest (he ▸ hx))
          rw [List.contains_cons, hxc, Bool.false_or]
        rw [hfilter]
        have htake : mx - add.length = (mx - (add.length + 1)) + 1 := by omega
        simp only [List.map_cons, List.filter_cons, hc, Bool.not_false, if_true]
        rw [htake]
        simp only [List.take_succ_cons, List.length_append, List.length_singleton,
          List.append_assoc, List.singleton_append]
      case isFalse hcond =>
        rw [ih seen add parts hndrest]
        cases hc : seen.contains c with
        | true =>
            have hmem : c ∈ seen := by simpa using hc
            simp [List.filter_cons, hmem]
        | false =>
            have hmem : c ∉ seen := by simpa using hc
            have hlen : ¬ add.length < mx := by
              intro hlt
              exact hcond (by simp [hmem, hlt])
            have hz : mx - add.length = 0 := by omega
            simp [List.filter_cons, hmem, hz]

/-- When the first candidate is unseen and capacity remains, it is the first
accepted element. -/
theorem select_loop_first_accepted (gc : String → String) (mx : Nat)
    (seen parts : List String) (c r : String) (rest : List (String × String))
    (hc : seen.contains c = false) (hmx : 0 < mx) :
    ((select_loop gc mx seen [] parts ((c, r) :: rest)).1).head? = some c := by
  have hmem : c ∉ seen := by simpa using hc
  simp only [select_loop]
  rw [if_pos (by simp [hmem, hmx])]
  obtain ⟨l, hl⟩ := select_loop_extends gc mx rest (c :: seen) ([] ++ [c]) _
  rw [hl]
  simp

/-- The spec-side opposition table never lists a community twice. -/
theorem spec_political_opposition_nodup (up : Option String) :
    (spec_political_opposition up).Nodup := by
  unfold spec_political_opposition
  split
  · exact List.nodup_singleton _
  · split
    · exact List.nodup_singleton _
    · split
      · decide
      · exact List.nodup_singleton _

/-- Keys produced by the political rule are always progressive or
conservative. -/
theorem political_opposition_keys (user : UserProfile) (cp : ControversyProfile) :
    ∀ x ∈ (political_opposition user cp).map Prod.fst,
      x = "progressive" ∨ x = "conservative" := by
  intro x hx
  unfold political_opposition at hx
  split at hx
  · dsimp only at hx
    split at hx
    · simp at hx
      exact Or.inr hx
    · split at hx
      · simp at hx
        exact Or.inl hx
      · split at hx
        · simp at hx
          rcases hx with h | h
          · exact Or.inl h
          · exact Or.inr h
        · simp at hx
          exact Or.inl hx
  · cases hx

/-- Keys proposed by the identity rule come from the topic's identity list. -/
theorem identity_rule_keys (g : String → Option Community) (n : String → String)
    (u : UserProfile) :
    ∀ idList : List String,
      ∀ x ∈ (identity_rule g n u idList).1.map Prod.fst, x ∈ idList := by
  intro idList
  induction idList with
  | nil =>
      intro x hx
      simp [identity_rule] at hx
  | cons c rest ih =>
      intro x hx
      simp only [identity_rule] at hx
      split at hx
      · exact List.mem_cons_of_mem _ (ih x hx)
      · split at hx
        · split at hx
          · simp only [List.map_cons, List.mem_cons] at hx
            rcases hx with h | h
            · exact h ▸ List.mem_cons_self _ _
            · exact List.mem_cons_of_mem _ (ih x h)
          · exact List.mem_cons_of_mem _ (ih x hx)
        · exact List.mem_cons_of_mem _ (ih x hx)

/-- Keys proposed by the professional rule come from the topic's professional
list. -/
theorem professional_rule_keys (n : String → String) (u : UserProfile)
    (profList : List String) :
    ∀ x ∈ (professional_rule n u profList).map Prod.fst, x ∈ profList := by
  intro x hx
  unfold professional_rule at hx
  split at hx
  case h_1 comm heq =>
    simp only [List.map_cons, List.map_nil, List.mem_singleton] at hx
    exact hx ▸ List.mem_of_find?_eq_some heq
  case h_2 =>
    cases hx

/-- No per-topic identity or professional list names the secular
counterpoint community. -/
theorem sp_not_in_topic_lists (topic_category : Option String) :
    "secular_progressive" ∉
        ((topic_category.bind lookup_topic_mapping).getD {}).identity.getD [] ∧
    "secular_progressive" ∉
        ((topic_category.bind lookup_topic_mapping).getD {}).professional.getD [] := by
  cases topic_category with
  | none => simp
  | some s =>
      cases hf : lookup_topic_mapping s with
      | none => simp [hf]
      | some tc =>
          have hred : ((some s).bind lookup_topic_mapping).getD {} = tc := by
            simp [hf]
          rw [hred]
          unfold lookup_topic_mapping at hf
          cases hfind : TOPIC_COMMUNITY_MAPPINGS.find? (fun e => e.1 == s) with
          | none => rw [hfind] at hf; cases hf
          | some e =>
              rw [hfind] at hf
              simp at hf
              have hmem : e ∈ TOPIC_COMMUNITY_MAPPINGS := List.mem_of_find?_eq_some hfind
              have hall : ∀ e ∈ TOPIC_COMMUNITY_MAPPINGS,
                  "secular_progressive" ∉ e.2.identity.getD [] ∧
                  "secular_progressive" ∉ e.2.professional.getD [] := by decide
              rw [← hf]
              exact hall e hmem

/-- C4: for every registry, user, controversy profile, topic and cap, the
selection result has the user's primary community as baseline, at most
`max_additional` additional communities, none of which is one of the user's
own communities, and no duplicates. -/
theorem select_communities_invariants (get_community : String → Option Community)
    (get_community_name : String → String) (user : UserProfile)
    (cp : ControversyProfile) (topic_category : Option String) (max_additional : Nat) :
    (select_communities get_community get_community_name user cp topic_category
        max_additional).baseline = user.primary_community ∧
    (select_communities get_community get_community_name user cp topic_category
        max_additional).additional.length ≤ max_additional ∧
    (∀ a ∈ (select_communities get_community get_community_name user cp topic_category
        max_additional).additional, a ∉ user.get_communities) ∧
    (select_communities get_community get_community_name user cp topic_category
        max_additional).additional.Nodup := by
  cases hs : cp.should_surface_perspectives with
  | false =>
      simp [select_communities, hs]
  | true =>
      simp only [select_communities, hs, Bool.not_true, Bool.false_eq_true, if_false]
      refine ⟨trivial, ?_, ?_, ?_⟩
      · exact (select_loop_invariant _ _ _ _ _ _ List.nodup_nil (by simp)).2.2 (by simp)
      · intro a ha
        rcases (select_loop_invariant _ _ _ _ _ _ List.nodup_nil (by simp)).2.1 a ha with h | h
        · cases h
        · simpa using h
      · exact (select_loop_invariant _ _ _ _ _ _ List.nodup_nil (by simp)).1

/-- In the surfacing branch, the additional list is the selection loop run on
the four rules' candidates in order. -/
theorem select_surfacing_additional (get_community : String → Option Community)
    (get_community_name : String → String) (user : UserProfile)
    (cp : ControversyProfile) (topic_category : Option String) (max_additional : Nat)
    (hsurf : cp.should_surface_perspectives = true) :
    (select_communities get_community get_community_name user cp topic_category
        max_additional).additional
      = (select_loop get_community_name max_additional user.get_communities []
          (identity_rule get_community get_community_name user
            (((topic_category.bind lookup_topic_mapping).getD {}).identity.getD [])).2
          (religious_opposition user cp ((topic_category.bind lookup_topic_mapping).getD {})
            ++ political_opposition user cp
            ++ (identity_rule get_community get_community_name user
                (((topic_category.bind lookup_topic_mapping).getD {}).identity.getD [])).1
            ++ professional_rule get_community_name user
                (((topic_category.bind lookup_topic_mapping).getD {}).professional.getD []))).1 := by
  simp only [select_communities, hsurf, Bool.not_true, Bool.false_eq_true, if_false]

/-- C6: with the political dimension active, the selector's political
candidates follow the fixed opposition table on the user's derived political
leaning (progressive/socialist get conservative, conservative gets
progressive, libertarian gets both, anything else gets progressive), and with
the other rules silent (religious dimension inactive, no topic) the additional
list is exactly that table filtered against the user's own communities and
truncated at the cap. -/
theorem political_rule_opposition_table (get_community : String → Option Community)
    (get_community_name : String → String) (user : UserProfile) (cp : ControversyProfile)
    (max_additional : Nat)
    (hpol : inHighControversy cp.political = true)
    (hrel : inHighControversy cp.religious = false) :
    (political_opposition user cp).map Prod.fst
        = spec_political_opposition (user_politics user) ∧
    (select_communities get_community get_community_name user cp none
        max_additional).additional
      = ((spec_political_opposition (user_politics user)).filter
          (fun c => !(user.get_communities.contains c))).take max_additional := by
  have hkeys : (political_opposition user cp).map Prod.fst
      = spec_political_opposition (user_politics user) := by
    unfold political_opposition spec_political_opposition
    rw [if_pos hpol]
    dsimp only
    split
    · rfl
    · split
      · rfl
      · split
        · rfl
        · rfl
  refine ⟨hkeys, ?_⟩
  have hsurf : cp.should_surface_perspectives = true := by
    simp [ControversyProfile.should_surface_perspectives, hpol]
  rw [select_surfacing_additional get_community get_community_name user cp none
    max_additional hsurf]
  have e1 : (((none : Option String).bind lookup_topic_mapping).getD {})
      = ({} : TopicCommunities) := rfl
  rw [e1]
  have e2 : religious_opposition user cp ({} : TopicCommunities) = [] := by
    simp [religious_opposition, hrel]
  have e3 : ({} : TopicCommunities).identity.getD [] = ([] : List String) := rfl
  have e4 : identity_rule get_community get_community_name user ([] : List String)
      = ([], []) := rfl
  rw [e2, e3, e4]
  dsimp only
  rw [show professional_rule get_community_name user ([] : List String) = [] from rfl]
  simp only [List.nil_append, List.append_nil]
  rw [select_loop_keys get_community_name max_additional (political_opposition user cp)
    user.get_communities [] [] (by rw [hkeys]; exact spec_political_opposition_nodup _)]
  rw [hkeys]
  simp

/-- Witness: scenario C — a libertarian user with an active political
dimension receives both the progressive and the conservative candidate. -/
theorem political_rule_opposition_table_witness :
    (select_communities sample_registry sample_names sample_libertarian_user
        (profile3 ControversyLevel.LOW ControversyLevel.HIGH ControversyLevel.LOW) none
        2).additional = ["progressive", "conservative"] := by
  have h := (political_rule_opposition_table sample_registry sample_names
    sample_libertarian_user
    (profile3 ControversyLevel.LOW ControversyLevel.HIGH ControversyLevel.LOW) 2
    (by decide) (by decide)).2
  rw [h]
  decide

/-- C9: with the religious dimension active, a religiously affiliated user is
proposed the secular counterpoint first (unless "atheist" is already among
their communities, in which case no secular counterpoint appears at all),
while a non-religiously affiliated user is proposed the first topic-specific
religious community (default pair Catholic/evangelical_protestant) they do
not already hold. -/
theorem religious_rule_behaviour (get_community : String → Option Community)
    (get_community_name : String → String) (user : UserProfile) (cp : ControversyProfile)
    (topic_category : Option String) (max_additional : Nat)
    (hrel : inHighControversy cp.religious = true) :
    (user.is_religious = true →
     user.get_communities.contains "atheist" = false →
     user.get_communities.contains "secular_progressive" = false →
     0 < max_additional →
     ((select_communities get_community get_community_name user cp topic_category
        max_additional).additional).head? = some "secular_progressive") ∧
    (user.is_religious = true →
     user.get_communities.contains "atheist" = true →
     "secular_progressive" ∉ (select_communities get_community get_community_name user cp
        topic_category max_additional).additional) ∧
    (user.is_religious = false →
     ∀ comm,
       (((topic_category.bind lookup_topic_mapping).getD {}).religious.getD
           ["Catholic", "evangelical_protestant"]).find?
           (fun x => !(user.get_communities.contains x)) = some comm →
       0 < max_additional →
       ((select_communities get_community get_community_name user cp topic_category
          max_additional).additional).head? = some comm) := by
  have hsurf : cp.should_surface_perspectives = true := by
    simp [ControversyProfile.should_surface_perspectives, hrel]
  refine ⟨?_, ?_, ?_⟩
  · intro hisrel hath hsp hmx
    rw [select_surfacing_additional get_community get_community_name user cp topic_category
      max_additional hsurf]
    have hath2 : "atheist" ∉ user.get_communities := by simpa using hath
    have hro : religious_opposition user cp
        ((topic_category.bind lookup_topic_mapping).getD {})
        = [("secular_progressive", "secular counterpoint")] := by
      simp [religious_opposition, hrel, hisrel, hath2]
    rw [hro]
    simp only [List.singleton_append, List.cons_append]
    exact select_loop_first_accepted _ _ _ _ _ _ _ hsp hmx
  · intro hisrel hath
    rw [select_surfacing_additional get_community get_community_name user cp topic_category
      max_additional hsurf]
    have hath2 : "atheist" ∈ user.get_communities := by simpa using hath
    have hro : religious_opposition user cp
        ((topic_category.bind lookup_topic_mapping).getD {}) = [] := by
      simp [religious_opposition, hrel, hisrel, hath2]
    rw [hro]
    simp only [List.nil_append]
    intro hmem
    rcases select_loop_subset _ _ _ _ _ _ _ hmem with h | h
    · cases h
    · rw [List.map_append, List.map_append] at h
      rcases List.mem_append.mp h with h1 | h2
      · rcases List.mem_append.mp h1 with hp | hi
        · rcases political_opposition_keys user cp _ hp with he | he
          · exact absurd he (by decide)
          · exact absurd he (by decide)
        · exact absurd (identity_rule_keys get_community get_community_name user _ _ hi)
            (sp_not_in_topic_lists topic_category).1
      · exact absurd (professional_rule_keys get_community_name user _ _ h2)
          (sp_not_in_topic_lists topic_category).2
  · intro hisrel comm hfind hmx
    rw [select_surfacing_additional get_community get_community_name user cp topic_category
      max_additional hsurf]
    have hro : religious_opposition user cp
        ((topic_category.bind lookup_topic_mapping).getD {})
        = [(comm, "religious perspective")] := by
      simp only [religious_opposition, hrel, if_true, hisrel, Bool.false_eq_true, if_false]
      rw [hfind]
    rw [hro]
    simp only [List.singleton_append, List.cons_append]
    have hc : user.get_communities.contains comm = false := by
      have := List.find?_some hfind
      simpa using this
    exact select_loop_first_accepted _ _ _ _ _ _ _ hc hmx

/-- Witness: a Hindu-primary user with an active religious dimension is
proposed the secular counterpoint first. -/
theorem religious_rule_behaviour_witness :
    ((select_communities sample_registry sample_names sample_religious_user
        (profile3 ControversyLevel.HIGH ControversyLevel.LOW ControversyLevel.LOW) none
        2).additional).head? = some "secular_progressive" :=
  (religious_rule_behaviour sample_registry sample_names sample_religious_user
      (profile3 ControversyLevel.HIGH ControversyLevel.LOW ControversyLevel.LOW) none 2
      (by decide)).1 (by decide) (by decide) (by decide) (by decide)
